import Mathlib

/-!
Verification development for the parser-lib repository (pfs-parser): a shallow
embedding of the ABNF advance engine, the line-counting iterator and the AST
builder context, with theorems settling the specification claims.

Input sequences are modelled as `List Char`; an iterator position is a `Nat`
index, with `s.length` playing the role of the end position `last`.
Dereferencing is Option-valued (`s[p]?`); an advancer whose C++ source would
dereference the end position returns `none` (the read is out of bounds).
-/

/-- Helper turning a string literal into the character sequence it denotes. -/
def chars (s : String) : List Char := s.data

/-- Embeds `compare_and_assign` (core_rules.hpp): assigns `b` to the caller's
position when it moved, reporting whether any progress was made. -/
def compare_and_assign (a b : Nat) : Bool × Nat :=
  if a ≠ b then (true, b) else (false, a)

/-- Embeds `is_alpha` / `is_alpha_char` (core_rules.hpp): A-Z / a-z. -/
def is_alpha_char (c : Char) : Bool :=
  (0x41 ≤ c.toNat && c.toNat ≤ 0x5A) || (0x61 ≤ c.toNat && c.toNat ≤ 0x7A)

/-- Embeds `is_bit_char` (core_rules.hpp): "0" / "1". -/
def is_bit_char (c : Char) : Bool :=
  c = '0' || c = '1'

/-- Embeds `is_digit_char` (core_rules.hpp): %x30-39. -/
def is_digit_char (c : Char) : Bool :=
  0x30 ≤ c.toNat && c.toNat ≤ 0x39

/-- Embeds `is_hexdigit_char` (core_rules.hpp): DIGIT / A-F / a-f. -/
def is_hexdigit_char (c : Char) : Bool :=
  is_digit_char c
    || ('A'.toNat ≤ c.toNat && c.toNat ≤ 'F'.toNat)
    || ('a'.toNat ≤ c.toNat && c.toNat ≤ 'f'.toNat)

/-- Embeds `is_cr_char` (core_rules.hpp): %x0D. -/
def is_cr_char (c : Char) : Bool := c = '\r'

/-- Embeds `is_lf_char` (core_rules.hpp): %x0A. -/
def is_lf_char (c : Char) : Bool := c = '\n'

/-- Embeds `is_whitespace_char` (core_rules.hpp): SP / HTAB. -/
def is_whitespace_char (c : Char) : Bool :=
  c = ' ' || c = '\t'

/-- Embeds `is_prose_value_char` (abnf/parser.hpp): %x20-3D / %x3F-7E. -/
def is_prose_value_char (c : Char) : Bool :=
  (0x20 ≤ c.toNat && c.toNat ≤ 0x3D) || (0x3F ≤ c.toNat && c.toNat ≤ 0x7E)

/-- Walks forward over characters of class `f`, fuelled version of the C++
loop `while (p != last && f(*p)) ++p;`. The fuel only bounds the recursion;
`s.length` steps always suffice. -/
def scan_class_aux (f : Char → Bool) (s : List Char) : Nat → Nat → Nat
  | 0, p => p
  | fuel + 1, p =>
    match s[p]? with
    | none => p
    | some c => if f c then scan_class_aux f s fuel (p + 1) else p

/-- The position reached by walking over characters of class `f` from `p`. -/
def scan_class (f : Char → Bool) (s : List Char) (p : Nat) : Nat :=
  scan_class_aux f s s.length p

/-- Modelled from the spec: the low-level advancers `advance_bit_chars`,
`advance_digit_chars` and `advance_hexdigit_chars` called by
`advance_number_value` are absent from src (only their call sites are);
per spec section 2 each walks a sequence of its character class and returns
whether any forward progress occurred, advancing the position accordingly. -/
def advance_class_chars (f : Char → Bool) (s : List Char) (pos : Nat) : Bool × Nat :=
  compare_and_assign pos (scan_class f s pos)

/-- Embeds `advance_prose_value` (abnf/parser.hpp lines 118-146). -/
def advance_prose_value (s : List Char) (pos : Nat) : Bool × Nat :=
  match s[pos]? with
  | none => (false, pos)
  | some c =>
    if c ≠ '<' then (false, pos)
    else
      let p := scan_class is_prose_value_char s (pos + 1)
      match s[p]? with
      | none => (false, pos)
      | some c2 =>
        if c2 ≠ '>' then (false, pos)
        else compare_and_assign pos (p + 1)

/-- Embeds `advance_newline` (core_rules.hpp lines 140-162): CR LF / LF / CR,
with the LF after a CR consumed only when `p != last`. -/
def advance_newline (s : List Char) (pos : Nat) : Bool × Nat :=
  match s[pos]? with
  | none => (false, pos)
  | some c =>
    if is_cr_char c then
      compare_and_assign pos
        (match s[pos + 1]? with
         | none => pos + 1
         | some c2 => if is_lf_char c2 then pos + 2 else pos + 1)
    else if is_lf_char c then
      compare_and_assign pos (pos + 1)
    else (false, pos)

/-- Embeds `advance_internet_newline` (core_rules.hpp lines 104-125). After
consuming the CR the source evaluates `is_lf_char(*p)` without first checking
`p != last`; the embedding returns `none` on that out-of-bounds read. -/
def advance_internet_newline (s : List Char) (pos : Nat) : Option (Bool × Nat) :=
  match s[pos]? with
  | none => some (false, pos)
  | some c =>
    if ¬ is_cr_char c then some (false, pos)
    else
      match s[pos + 1]? with
      | none => none
      | some c2 =>
        if ¬ is_lf_char c2 then some (false, pos)
        else some (compare_and_assign pos (pos + 2))

/-- Fuelled loop of `advance_linear_whitespace` (core_rules.hpp lines 296-311):
whitespace characters and newlines are consumed until neither matches. -/
def lws_loop (s : List Char) : Nat → Nat → Nat
  | 0, p => p
  | fuel + 1, p =>
    match s[p]? with
    | none => p
    | some c =>
      if is_whitespace_char c then lws_loop s fuel (p + 1)
      else
        let r := advance_newline s p
        if r.1 then lws_loop s fuel r.2 else p

/-- Embeds `advance_linear_whitespace` (core_rules.hpp lines 296-311). -/
def advance_linear_whitespace (s : List Char) (pos : Nat) : Bool × Nat :=
  compare_and_assign pos (lws_loop s s.length pos)

/-- Embeds `number_flag` (abnf/parser.hpp lines 148-150). -/
inductive number_flag where
  | unspecified
  | binary
  | decimal
  | hexadecimal
deriving DecidableEq

/-- Callback events of `advance_number_value` (the `NumValueCallbacks` of
abnf/parser.hpp), each carrying the half-open span of the value text. -/
inductive num_event where
  | first (flag : number_flag) (a b : Nat)
  | next (flag : number_flag) (a b : Nat)
  | last (flag : number_flag) (a b : Nat)
deriving DecidableEq

/-- Outcome of the `.`-separated-values loop of `advance_number_value`:
an out-of-bounds read, a failed digit requirement, or normal exit carrying
the final position and the events emitted so far. -/
inductive dot_out where
  | oob (evs : List num_event)
  | nomatch (evs : List num_event)
  | done (p : Nat) (evs : List num_event)
deriving DecidableEq

/-- Embeds the `while (*p == '.') { ... }` loop of `advance_number_value`
(abnf/parser.hpp lines 241-256). Entered when the character at `p` is a dot.
The source reads `*p` for the digit check right after `++p`, and again at the
top of the loop for the condition, both without an end-of-input check; the
embedding reports `dot_out.oob` on those reads at the end position. -/
def dot_loop (isd : Char → Bool) (flag : number_flag) (s : List Char) :
    Nat → Nat → List num_event → dot_out
  | 0, _, evs => dot_out.oob evs
  | fuel + 1, p, evs =>
    match s[p + 1]? with
    | none => dot_out.oob evs
    | some c =>
      if ¬ isd c then dot_out.nomatch evs
      else
        match advance_class_chars isd s (p + 1) with
        | (ok1, q1) =>
          if ok1 = false then dot_out.nomatch evs
          else
            match s[q1]? with
            | none => dot_out.oob (evs ++ [num_event.next flag (p + 1) q1])
            | some c2 =>
              if c2 = '.' then
                dot_loop isd flag s fuel q1 (evs ++ [num_event.next flag (p + 1) q1])
              else dot_out.done q1 (evs ++ [num_event.next flag (p + 1) q1])

/-- Embeds `advance_number_value` (abnf/parser.hpp lines 173-265), with the
callback invocations recorded as an event list. Returns `none` when the source
would dereference the end position (after the `-`, or inside or at the top of
the `.`-separated-values loop). -/
def advance_number_value (s : List Char) (pos : Nat) :
    Option ((Bool × Nat) × List num_event) :=
  match s[pos]? with
  | none => some ((false, pos), [])
  | some c0 =>
    if c0 ≠ '%' then some ((false, pos), [])
    else
      match s[pos + 1]? with
      | none => some ((false, pos), [])
      | some c1 =>
        match
          (if c1 = 'x' then some (number_flag.hexadecimal, is_hexdigit_char)
           else if c1 = 'd' then some (number_flag.decimal, is_digit_char)
           else if c1 = 'b' then some (number_flag.binary, is_bit_char)
           else none : Option (number_flag × (Char → Bool))) with
        | none => some ((false, pos), [])
        | some (flag, isd) =>
          match s[pos + 2]? with
          | none => some ((false, pos), [])
          | some _ =>
            match advance_class_chars isd s (pos + 2) with
            | (ok0, q0) =>
              if ok0 = false then some ((false, pos), [])
              else
                match s[q0]? with
                | none =>
                  some (compare_and_assign pos q0, [num_event.first flag (pos + 2) q0])
                | some c3 =>
                  if c3 = '-' then
                    match s[q0 + 1]? with
                    | none => none
                    | some c4 =>
                      if ¬ isd c4 then
                        some ((false, pos), [num_event.first flag (pos + 2) q0])
                      else
                        match advance_class_chars isd s (q0 + 1) with
                        | (ok1, q1) =>
                          if ok1 = false then
                            some ((false, pos), [num_event.first flag (pos + 2) q0])
                          else
                            some (compare_and_assign pos q1
                              , [num_event.first flag (pos + 2) q0
                                , num_event.last flag (q0 + 1) q1])
                  else if c3 = '.' then
                    match dot_loop isd flag s s.length q0
                        [num_event.first flag (pos + 2) q0] with
                    | dot_out.oob _ => none
                    | dot_out.nomatch evs2 => some ((false, pos), evs2)
                    | dot_out.done p6 evs2 =>
                      some (compare_and_assign pos p6
                        , evs2 ++ [num_event.last flag p6 p6])
                  else
                    some (compare_and_assign pos q0
                      , [num_event.first flag (pos + 2) q0])

/-- Embeds the two `for` loops of `advance_repetition_by_range`
(generator.hpp lines 88-102). The loop body applies `op` to the caller's
position directly; `c` mirrors both the loop counter `i` and the
`lower_bound` / `upper_bound` tally (they are incremented together and only
when the body completed without `break`). The fuel equals `bound.toNat`,
which is exhausted exactly when the counter condition `i < bound` fails. -/
def rep_loop (op : Nat → Bool × Nat) (lastp : Nat) (bound : Int) :
    Nat → Nat → Nat → Nat × Nat
  | 0, p, c => (p, c)
  | fuel + 1, p, c =>
    if p ≠ lastp ∧ (c : Int) < bound then
      let r := op p
      if r.1 then rep_loop op lastp bound fuel r.2 (c + 1) else (r.2, c)
    else (p, c)

/-- Embeds `advance_repetition_by_range` (generator.hpp lines 79-104).
The first loop runs `op` up to `range.1` times; if fewer than `range.1`
applications succeeded the function returns false (with the position left
wherever the loops put it, since `op` receives the position by reference).
The second loop then runs `op` up to `range.2` further times and the
function returns true. -/
def advance_repetition_by_range (op : Nat → Bool × Nat) (lastp : Nat)
    (range : Int × Int) (pos : Nat) : Bool × Nat :=
  let r1 := rep_loop op lastp range.1 range.1.toNat pos 0
  if (r1.2 : Int) ≠ range.1 then (false, r1.1)
  else
    let r2 := rep_loop op lastp range.2 range.2.toNat r1.1 0
    (true, r2.1)

/-- The matcher used by the `advance_repetition_by_range` test
(tests/generator.cpp lines 41-47): consume one alphabetic character. -/
def op_alpha (s : List Char) (p : Nat) : Bool × Nat :=
  match s[p]? with
  | none => (false, p)
  | some c => if is_alpha_char c then (true, p + 1) else (false, p)

/-- Embeds `line_counter_iterator` (line_counter_iterator.hpp and
src/unnamed/part_008, the revision carrying the `_offset` field). -/
structure line_counter_iterator (α : Type) where
  lineno : Nat
  offset : Nat
  it : α
  is_CR : Bool
deriving DecidableEq

/-- Embeds `line_counter_iterator::operator==` (src/unnamed/part_008 lines
69-76): both the base iterator and the offset from the origin must match.
The base comparison is abstracted by `beq`. -/
def lc_eq {α : Type} (beq : α → α → Bool) (a b : line_counter_iterator α) : Bool :=
  beq a.it b.it && a.offset == b.offset

/-- Embeds `line_counter_iterator::operator!=` (src/unnamed/part_008 lines
78-81): the negation of `operator==`. -/
def lc_ne {α : Type} (beq : α → α → Bool) (a b : line_counter_iterator α) : Bool :=
  ! lc_eq beq a b

/-- Embeds `line_counter_iterator::operator++` (src/unnamed/part_008 lines
39-55, identical line logic in line_counter_iterator.hpp lines 42-57) over a
`Nat` index into a character list. The source statement `_is_CR == true;` in
the CR branch is a comparison expression with no effect, so the embedded
state keeps the old `is_CR` value there. Both dereferences of the wrapped
iterator (before and after `++_it`) are unguarded in the source; the
embedding returns `none` when either read is at or past the end. -/
def lc_inc (s : List Char) (st : line_counter_iterator Nat) :
    Option (line_counter_iterator Nat) :=
  match s[st.it]? with
  | none => none
  | some c =>
    let isCR := if c = '\r' then st.is_CR else false
    match s[st.it + 1]? with
    | none => none
    | some c2 =>
      let ln := if c2 = '\r' ∨ (c2 = '\n' ∧ isCR = false) then st.lineno + 1
                else st.lineno
      some ⟨ln, st.offset + 1, st.it + 1, isCR⟩

/-- Applies `lc_inc` a given number of times. -/
def lc_advance (s : List Char) : Nat → Option (line_counter_iterator Nat) →
    Option (line_counter_iterator Nat)
  | 0, st => st
  | n + 1, st => lc_advance s n (st.bind (lc_inc s))

/-- The freshly constructed iterator: `_lineno = 1`, `_offset = 0` at index 0. -/
def lc_init : line_counter_iterator Nat := ⟨1, 0, 0, false⟩

/-- Embeds `errc` (src/unnamed/part_005 lines 20-33). -/
inductive errc where
  | success
  | unbalanced_quote
  | bad_quoted_char
  | max_length_exceeded
  | bad_repeat_range
  | rule_undefined
  | rulename_duplicated
deriving DecidableEq

/-- Embeds the data of `number_node` (abnf/syntax_tree.hpp lines 286-322):
a flag, the range marker `_is_range` and the stored value texts. -/
structure number_data where
  flag : number_flag
  is_range : Bool
  value : List String
deriving DecidableEq

/-- Embeds `number_node::set_first` (abnf/syntax_tree.hpp lines 302-306);
the `assert(_value.size() == 0)` becomes the `none` branch. -/
def number_set_first (text : String) (n : number_data) : Option number_data :=
  if n.value.length = 0 then some ⟨n.flag, n.is_range, n.value ++ [text]⟩
  else none

/-- Embeds `number_node::set_last` (abnf/syntax_tree.hpp lines 309-314);
the `assert(_value.size() == 1)` becomes the `none` branch; the range marker
is set and the text appended. -/
def number_set_last (text : String) (n : number_data) : Option number_data :=
  if n.value.length = 1 then some ⟨n.flag, true, n.value ++ [text]⟩
  else none

/-- Embeds `number_node::push_next` (abnf/syntax_tree.hpp lines 316-321);
the asserts `_value.size() > 0` and `_is_range != true` become the `none`
branch. -/
def number_push_next (text : String) (n : number_data) : Option number_data :=
  if 0 < n.value.length ∧ n.is_range = false then
    some ⟨n.flag, n.is_range, n.value ++ [text]⟩
  else none

/-- Construction-stack nodes of the AST builder, restricted to the shapes the
`last_number` handler touches (abnf/syntax_tree.hpp): a number node, a
repetition node with bounds and optional inner element, or any other node. -/
inductive st_node where
  | number (d : number_data)
  | repetition (lo hi : Int) (element : Option st_node)
  | other

/-- Embeds `syntax_tree_context::last_number` (abnf/syntax_tree.hpp lines
654-679): the top of stack must be a number node (`check_number_node`);
a non-empty text span sets the range's last value, an empty span goes through
`push_next`; the number is then popped and assigned as the element of the
repetition node that must be beneath it (`check_repetition_node`). Assertion
failures become `none`. -/
def ctx_last_number (text : String) (stack : List st_node) :
    Option (List st_node) :=
  match stack with
  | st_node.number d :: rest =>
    match (if text ≠ "" then number_set_last text d else number_push_next text d) with
    | none => none
    | some d2 =>
      match rest with
      | st_node.repetition lo hi _ :: rest2 =>
        some (st_node.repetition lo hi (some (st_node.number d2)) :: rest2)
      | _ => none
  | _ => none

/-- A rulelist entry: a rule name with its ordered list of alternatives. -/
abbrev rule_entry := String × List String

/-- Whether the rulelist already contains a rule of the given name. -/
def rl_contains (name : String) : List rule_entry → Bool
  | [] => false
  | (n, _) :: t => n = name || rl_contains name t

/-- Modelled from the spec: `rulelist_node::extract` (src/unnamed/part_006
lines 371-381) removes and returns the rule stored under `name`, or reports
absence. -/
def rl_extract (name : String) : List rule_entry →
    Option (List String × List rule_entry)
  | [] => none
  | (n, alts) :: t =>
    if n = name then some (alts, t)
    else
      match rl_extract name t with
      | none => none
      | some r => some (r.1, (n, alts) :: r.2)

/-- Modelled from the spec: `rulelist_node::emplace` (src/unnamed/part_006
lines 365-369) stores a rule under its name; as the rulelist is a map keyed
by the name, storing under an existing name replaces that entry. -/
def rl_emplace (name : String) (alts : List String) : List rule_entry →
    List rule_entry
  | [] => [(name, alts)]
  | (n, a) :: t =>
    if n = name then (name, alts) :: t else (n, a) :: rl_emplace name alts t

/-- The names held by a rulelist, in storage order. -/
def rl_names : List rule_entry → List String
  | [] => []
  | (n, _) :: t => n :: rl_names t

/-- Modelled from the spec: the state of the final AST builder context
(spec section 4.5), whose rule handling is absent from src (only its error
codes, the rulelist node with extract/emplace, its tests and its callers
are). A rule under construction is its name with the alternatives
accumulated so far; semantic errors are recorded on the state. -/
structure sb_state where
  rulelist : List rule_entry
  stack : List rule_entry
  err : Option errc
deriving DecidableEq

/-- The builder state right after `begin_document`: empty rulelist, empty
construction stack, no recorded error. -/
def sb_init : sb_state := ⟨[], [], none⟩

/-- Modelled from the spec: `begin_rule(name, incremental)` (spec section
4.5). With `incremental = false` it verifies the rulelist does not already
contain the name, firing `rulename_duplicated` and returning false on a
duplicate, and otherwise pushes a new rule node carrying the name. With
`incremental = true` it extracts the existing rule by name, firing
`rule_undefined` and returning false when it is absent, and otherwise pushes
the extracted rule back onto the stack to accumulate more alternatives. -/
def sb_begin_rule (name : String) (incremental : Bool) (st : sb_state) :
    Bool × sb_state :=
  if incremental then
    match rl_extract name st.rulelist with
    | none => (false, ⟨st.rulelist, st.stack, some errc.rule_undefined⟩)
    | some r => (true, ⟨r.2, (name, r.1) :: st.stack, st.err⟩)
  else if rl_contains name st.rulelist then
    (false, ⟨st.rulelist, st.stack, some errc.rulename_duplicated⟩)
  else
    (true, ⟨st.rulelist, (name, []) :: st.stack, st.err⟩)

/-- Modelled from the spec: a successfully closed alternation is appended to
the ordered body of the rule on top of the construction stack (spec section
4.5, `end_alternation` on success). -/
def sb_alternative (a : String) (st : sb_state) : sb_state :=
  match st.stack with
  | [] => st
  | (n, alts) :: t => ⟨st.rulelist, (n, alts ++ [a]) :: t, st.err⟩

/-- Modelled from the spec: `end_rule` (spec section 4.5) pops the rule;
on success it is emplaced in the rulelist under its name, on failure it is
discarded. -/
def sb_end_rule (success : Bool) (st : sb_state) : sb_state :=
  match st.stack with
  | [] => st
  | (n, alts) :: t =>
    if success then ⟨rl_emplace n alts st.rulelist, t, st.err⟩
    else ⟨st.rulelist, t, st.err⟩

/-- The builder events the rule-level claims exercise. -/
inductive sb_event where
  | begin_rule (name : String) (incremental : Bool)
  | alternative (a : String)
  | end_rule (success : Bool)

/-- One builder transition. -/
def sb_step (e : sb_event) (st : sb_state) : sb_state :=
  match e with
  | sb_event.begin_rule n inc => (sb_begin_rule n inc st).2
  | sb_event.alternative a => sb_alternative a st
  | sb_event.end_rule ok => sb_end_rule ok st

/-- Runs a list of builder events from a state. -/
def sb_run (es : List sb_event) (st : sb_state) : sb_state :=
  es.foldl (fun s e => sb_step e s) st

/-- Result of the quoted-string advancer: success flag, resulting position
and the error reported through the context (or `errc.success` when none). -/
structure qs_out where
  success : Bool
  pos : Nat
  err : errc
deriving DecidableEq

/-- The characters admitted inside a quoted string: %x20-21 / %x23-7E
(spec section 4.3, quoted-string grammar). -/
def is_quoted_string_char (c : Char) : Bool :=
  (0x20 ≤ c.toNat && c.toNat ≤ 0x21) || (0x23 ≤ c.toNat && c.toNat ≤ 0x7E)

/-- Modelled from the spec: the scanning loop of `advance_quoted_string`
(spec sections 4.3 and 4.4; implementation absent from src, only its tests
in tests/abnf_rules.cpp lines 209-277 and the error codes are). Walks the
literal's content from position `p` with `len` characters consumed so far:
end of input before the closing quote reports `unbalanced_quote`; a
character outside %x20-21 / %x23-7E reports `bad_quoted_char`; exceeding
the configured maximum length (zero meaning no limit) reports
`max_length_exceeded`; each reported error aborts with the position reset
to the pre-call value `pos`. -/
def qs_loop (maxlen : Nat) (s : List Char) (pos : Nat) :
    Nat → Nat → Nat → qs_out
  | 0, _, _ => ⟨false, pos, errc.unbalanced_quote⟩
  | fuel + 1, p, len =>
    match s[p]? with
    | none => ⟨false, pos, errc.unbalanced_quote⟩
    | some c =>
      if c = '"' then ⟨true, p + 1, errc.success⟩
      else if ¬ is_quoted_string_char c then ⟨false, pos, errc.bad_quoted_char⟩
      else if maxlen ≠ 0 ∧ maxlen < len + 1 then
        ⟨false, pos, errc.max_length_exceeded⟩
      else qs_loop maxlen s pos fuel (p + 1) (len + 1)

/-- Modelled from the spec: `advance_quoted_string` (spec sections 4.3, 4.4;
implementation absent from src). A missing opening quote is a plain
non-match (no error); otherwise the content is scanned by `qs_loop`. -/
def advance_quoted_string (maxlen : Nat) (s : List Char) (pos : Nat) : qs_out :=
  match s[pos]? with
  | none => ⟨false, pos, errc.success⟩
  | some c =>
    if c ≠ '"' then ⟨false, pos, errc.success⟩
    else qs_loop maxlen s pos (s.length + 1) (pos + 1) 0

/-- A false result of `compare_and_assign` leaves the caller's position at
its first argument. -/
theorem compare_and_assign_false (a b : Nat)
    (h : (compare_and_assign a b).1 = false) : (compare_and_assign a b).2 = a := by
  by_cases hab : a = b
  · simp [compare_and_assign, hab]
  · simp [compare_and_assign, hab] at h

/-- An advancer that either returns `(false, pos)` outright or ends in
`compare_and_assign pos` keeps the position on failure. -/
theorem frame_of_shape {r : Bool × Nat} {pos : Nat}
    (h : r = (false, pos) ∨ ∃ x, r = compare_and_assign pos x)
    (hf : r.1 = false) : r.2 = pos := by
  rcases h with h | ⟨x, h⟩
  · rw [h]
  · rw [h] at hf ⊢
    exact compare_and_assign_false pos x hf

/-- Every path of `advance_prose_value` returns `(false, pos)` or ends in
`compare_and_assign pos`. -/
theorem advance_prose_value_shape (s : List Char) (pos : Nat) :
    advance_prose_value s pos = (false, pos)
  ∨ ∃ x, advance_prose_value s pos = compare_and_assign pos x := by
  unfold advance_prose_value
  split
  · exact Or.inl rfl
  · split
    · exact Or.inl rfl
    · dsimp only
      split
      · exact Or.inl rfl
      · split
        · exact Or.inl rfl
        · exact Or.inr ⟨_, rfl⟩

/-- Every path of `advance_newline` returns `(false, pos)` or ends in
`compare_and_assign pos`. -/
theorem advance_newline_shape (s : List Char) (pos : Nat) :
    advance_newline s pos = (false, pos)
  ∨ ∃ x, advance_newline s pos = compare_and_assign pos x := by
  unfold advance_newline
  split
  · exact Or.inl rfl
  · split
    · exact Or.inr ⟨_, rfl⟩
    · split
      · exact Or.inr ⟨_, rfl⟩
      · exact Or.inl rfl

/-- Every defined path of `advance_number_value` returns `(false, pos)` with
its events or ends in `compare_and_assign pos`. -/
theorem advance_number_value_shape (s : List Char) (pos : Nat) :
    advance_number_value s pos = none
  ∨ (∃ evs, advance_number_value s pos = some ((false, pos), evs))
  ∨ (∃ x evs, advance_number_value s pos = some (compare_and_assign pos x, evs)) := by
  unfold advance_number_value
  split
  · exact Or.inr (Or.inl ⟨_, rfl⟩)
  · split
    · exact Or.inr (Or.inl ⟨_, rfl⟩)
    · split
      · exact Or.inr (Or.inl ⟨_, rfl⟩)
      · split
        · exact Or.inr (Or.inl ⟨_, rfl⟩)
        · split
          · exact Or.inr (Or.inl ⟨_, rfl⟩)
          · split
            · split
              · exact Or.inr (Or.inl ⟨_, rfl⟩)
              · split
                · exact Or.inr (Or.inr ⟨_, _, rfl⟩)
                · split
                  · split
                    · exact Or.inl rfl
                    · split
                      · exact Or.inr (Or.inl ⟨_, rfl⟩)
                      · split
                        · split
                          · exact Or.inr (Or.inl ⟨_, rfl⟩)
                          · exact Or.inr (Or.inr ⟨_, _, rfl⟩)
                  · split
                    · split
                      · exact Or.inl rfl
                      · exact Or.inr (Or.inl ⟨_, rfl⟩)
                      · exact Or.inr (Or.inr ⟨_, _, rfl⟩)
                    · exact Or.inr (Or.inr ⟨_, _, rfl⟩)

/-- Membership in a rulelist's names decides `rl_contains`. -/
theorem rl_contains_iff (n : String) :
    ∀ l : List rule_entry, rl_contains n l = true ↔ n ∈ rl_names l := by
  intro l
  induction l with
  | nil => simp [rl_contains, rl_names]
  | cons hd t ih =>
    obtain ⟨m, b⟩ := hd
    simp only [rl_contains, rl_names, List.mem_cons, Bool.or_eq_true,
      decide_eq_true_eq, ih]
    tauto

/-- Emplacing keeps the stored names when the name is present and appends it
otherwise. -/
theorem rl_names_emplace (n : String) (alts : List String) :
    ∀ l : List rule_entry,
      rl_names (rl_emplace n alts l)
        = if rl_contains n l then rl_names l else rl_names l ++ [n] := by
  intro l
  induction l with
  | nil => simp [rl_emplace, rl_contains, rl_names]
  | cons hd t ih =>
    obtain ⟨m, b⟩ := hd
    by_cases hm : m = n
    · subst hm
      simp [rl_emplace, rl_contains, rl_names]
    · simp only [rl_emplace, if_neg hm, rl_names, rl_contains]
      rw [ih]
      by_cases hc : rl_contains n t
      · simp [hc, hm]
      · simp [hc, hm]

/-- Emplacing preserves distinctness of the stored names. -/
theorem rl_emplace_nodup (n : String) (alts : List String) (l : List rule_entry)
    (h : (rl_names l).Nodup) : (rl_names (rl_emplace n alts l)).Nodup := by
  rw [rl_names_emplace]
  split
  · exact h
  · rename_i hc
    have hn : n ∉ rl_names l := fun hm => hc ((rl_contains_iff n l).2 hm)
    simp [List.nodup_append, h, hn]

/-- Extraction leaves a sublist of the stored names. -/
theorem rl_extract_sublist (n : String) :
    ∀ (l : List rule_entry) (r : List String × List rule_entry),
      rl_extract n l = some r → (rl_names r.2).Sublist (rl_names l) := by
  intro l
  induction l with
  | nil => intro r h; simp [rl_extract] at h
  | cons hd t ih =>
    obtain ⟨m, b⟩ := hd
    intro r h
    by_cases hm : m = n
    · simp only [rl_extract, if_pos hm] at h
      injection h with h
      subst h
      exact List.sublist_cons_self m (rl_names t)
    · simp only [rl_extract, if_neg hm] at h
      cases hx : rl_extract n t with
      | none => rw [hx] at h; simp at h
      | some r2 =>
        rw [hx] at h
        simp only [Option.some.injEq] at h
        subst h
        exact ((ih r2 hx).cons₂ m)

/-- Every single builder event preserves distinctness of the rulelist names. -/
theorem sb_step_nodup (e : sb_event) (st : sb_state)
    (h : (rl_names st.rulelist).Nodup) :
    (rl_names (sb_step e st).rulelist).Nodup := by
  cases e with
  | begin_rule n inc =>
    simp only [sb_step, sb_begin_rule]
    cases inc with
    | true =>
      cases hx : rl_extract n st.rulelist with
      | none => simpa [hx] using h
      | some r => simpa [hx] using ((rl_extract_sublist n st.rulelist r hx).nodup h)
    | false =>
      by_cases hc : rl_contains n st.rulelist
      · simpa [hc] using h
      · simpa [hc] using h
  | alternative a =>
    simp only [sb_step, sb_alternative]
    cases st.stack with
    | nil => exact h
    | cons hd t =>
      obtain ⟨m, b⟩ := hd
      exact h
  | end_rule ok =>
    simp only [sb_step, sb_end_rule]
    cases hs : st.stack with
    | nil => exact h
    | cons hd t =>
      obtain ⟨m, b⟩ := hd
      cases ok with
      | true => exact rl_emplace_nodup m b st.rulelist h
      | false => exact h

/-- Every builder event stream preserves distinctness of the rulelist names. -/
theorem sb_run_nodup (es : List sb_event) :
    ∀ st : sb_state, (rl_names st.rulelist).Nodup →
      (rl_names (sb_run es st).rulelist).Nodup := by
  induction es with
  | nil => intro st h; exact h
  | cons e t ih => intro st h; exact ih _ (sb_step_nodup e st h)

/-- Every non-success error result of the quoted-string loop reports failure
with the position reset. -/
theorem qs_loop_shape (maxlen : Nat) (s : List Char) (pos : Nat) :
    ∀ fuel p len, (qs_loop maxlen s pos fuel p len).err = errc.success
    ∨ ((qs_loop maxlen s pos fuel p len).success = false
        ∧ (qs_loop maxlen s pos fuel p len).pos = pos) := by
  intro fuel
  induction fuel with
  | zero => intro p len; exact Or.inr ⟨rfl, rfl⟩
  | succ n ih =>
    intro p len
    unfold qs_loop
    split
    · exact Or.inr ⟨rfl, rfl⟩
    · split
      · exact Or.inl rfl
      · split
        · exact Or.inr ⟨rfl, rfl⟩
        · split
          · exact Or.inr ⟨rfl, rfl⟩
          · exact ih (p + 1) (len + 1)

/-- C1 (amended): for advance_prose_value, advance_number_value,
advance_newline and advance_linear_whitespace, a call that returns false
(and reports no error) leaves the position passed by reference at its
pre-call value; advance_repetition_by_range is excluded, as it operates on
the caller's position directly and can return false with the position
advanced past the successful leading applications of op. -/
theorem failure_preserves_position (s : List Char) (pos : Nat) :
    ((advance_prose_value s pos).1 = false → (advance_prose_value s pos).2 = pos)
  ∧ (∀ r, advance_number_value s pos = some r → r.1.1 = false → r.1.2 = pos)
  ∧ ((advance_newline s pos).1 = false → (advance_newline s pos).2 = pos)
  ∧ ((advance_linear_whitespace s pos).1 = false →
      (advance_linear_whitespace s pos).2 = pos) := by
  refine ⟨fun h => frame_of_shape (advance_prose_value_shape s pos) h, ?_,
    fun h => frame_of_shape (advance_newline_shape s pos) h,
    fun h => compare_and_assign_false pos _ h⟩
  intro r hr hf
  rcases advance_number_value_shape s pos with h | ⟨evs, h⟩ | ⟨x, evs, h⟩
  · rw [h] at hr
    exact absurd hr (by simp)
  · rw [h] at hr
    injection hr with hr
    subst hr
    rfl
  · rw [h] at hr
    injection hr with hr
    subst hr
    exact compare_and_assign_false pos x hf

/-- C1 counterexample: with the one-alpha matcher of tests/generator.cpp on
"a9" and repeat range (2, 2), advance_repetition_by_range returns false with
the position advanced from 0 to 1: the successful first application moved
the caller's iterator and the failure did not restore it. -/
theorem repetition_driver_moves_position_on_failure :
    advance_repetition_by_range (op_alpha (chars "a9")) 2 (2, 2) 0 = (false, 1)
  ∧ (1 : Nat) ≠ 0 := by decide

/-- C1 witness: concrete failing inputs for each of the four advancers of the
amended claim. -/
theorem failure_preserves_position_w :
    (advance_prose_value (chars " ") 0).2 = 0
  ∧ (((false, 0), ([] : List num_event)).1.2 = 0)
  ∧ (advance_newline (chars "x") 0).2 = 0
  ∧ (advance_linear_whitespace (chars "x") 0).2 = 0 :=
  ⟨(failure_preserves_position (chars " ") 0).1 (by decide)
  , (failure_preserves_position (chars "x") 0).2.1 ((false, 0), []) (by decide) rfl
  , (failure_preserves_position (chars "x") 0).2.2.1 (by decide)
  , (failure_preserves_position (chars "x") 0).2.2.2 (by decide)⟩

/-- C2: begin_rule with incremental=false fires rulename_duplicated and
returns false on a duplicate name, otherwise pushes a new rule carrying the
name; end_rule on success moves the popped rule into the rulelist; and for
every event stream the rulelist built from the initial state holds each rule
name at most once. -/
theorem rulelist_names_unique (name : String) (st : sb_state) (es : List sb_event)
    (n2 : String) (alts : List String) (t : List rule_entry) :
    (rl_contains name st.rulelist = true →
      sb_begin_rule name false st
        = (false, ⟨st.rulelist, st.stack, some errc.rulename_duplicated⟩))
  ∧ (rl_contains name st.rulelist = false →
      sb_begin_rule name false st
        = (true, ⟨st.rulelist, (name, []) :: st.stack, st.err⟩))
  ∧ (st.stack = (n2, alts) :: t →
      sb_end_rule true st = ⟨rl_emplace n2 alts st.rulelist, t, st.err⟩)
  ∧ (rl_names (sb_run es sb_init).rulelist).Nodup := by
  refine ⟨fun h => by simp [sb_begin_rule, h], fun h => by simp [sb_begin_rule, h],
    fun h => by simp [sb_end_rule, h],
    sb_run_nodup es sb_init (by simp [sb_init, rl_names])⟩

/-- C2 witness: a duplicate begin_rule on a one-rule rulelist, and an
end_rule moving a finished rule into the rulelist. -/
theorem rulelist_names_unique_w :
    sb_begin_rule "A" false ⟨[("A", ["x"])], [], none⟩
      = (false, ⟨[("A", ["x"])], [], some errc.rulename_duplicated⟩)
  ∧ sb_end_rule true ⟨[("A", ["x"])], [("B", ["y"])], none⟩
      = ⟨rl_emplace "B" ["y"] [("A", ["x"])], [], none⟩ :=
  ⟨(rulelist_names_unique "A" ⟨[("A", ["x"])], [], none⟩ [] "B" [] []).1 (by decide)
  , (rulelist_names_unique "A" ⟨[("A", ["x"])], [("B", ["y"])], none⟩ [] "B" ["y"] []).2.2.1
      (by decide)⟩

/-- C3: begin_rule with incremental=true fires rule_undefined and returns
false when the name is absent from the rulelist, otherwise pushes the
extracted rule to accumulate further alternatives; the incremental scenario
R = a / b followed by R =/ c yields a single rule R whose body is a, b, c in
that order. -/
theorem incremental_rule_accumulates (name : String) (st : sb_state) :
    (rl_extract name st.rulelist = none →
      sb_begin_rule name true st
        = (false, ⟨st.rulelist, st.stack, some errc.rule_undefined⟩))
  ∧ (∀ r, rl_extract name st.rulelist = some r →
      sb_begin_rule name true st = (true, ⟨r.2, (name, r.1) :: st.stack, st.err⟩))
  ∧ (sb_run [sb_event.begin_rule "R" false, sb_event.alternative "a"
      , sb_event.alternative "b", sb_event.end_rule true
      , sb_event.begin_rule "R" true, sb_event.alternative "c"
      , sb_event.end_rule true] sb_init).rulelist = [("R", ["a", "b", "c"])] := by
  refine ⟨fun h => by simp [sb_begin_rule, h], fun r h => by simp [sb_begin_rule, h],
    by decide⟩

/-- C3 witness: an incremental begin_rule on an empty rulelist fails with
rule_undefined; on a rulelist holding the rule it extracts it. -/
theorem incremental_rule_accumulates_w :
    sb_begin_rule "Z" true sb_init = (false, ⟨[], [], some errc.rule_undefined⟩)
  ∧ sb_begin_rule "A" true ⟨[("A", ["x"])], [], none⟩
      = (true, ⟨[], [("A", ["x"])], none⟩) :=
  ⟨(incremental_rule_accumulates "Z" sb_init).1 (by decide)
  , (incremental_rule_accumulates "A" ⟨[("A", ["x"])], [], none⟩).2.1 (["x"], [])
      (by decide)⟩

/-- C4: traversing "a\r\nb" from 'a' to 'b' raises lineno from 1 to 3, by
two, while "a\rb" and "a\nb" raise it by one: the source statement
`_is_CR == true;` is a comparison with no effect, so the CR is never
recorded and the LF of a CR LF pair increments the counter a second time. -/
theorem crlf_increments_lineno_twice :
    lc_advance (chars "a\r\nb") 3 (some lc_init) = some ⟨3, 3, 3, false⟩
  ∧ lc_advance (chars "a\rb") 2 (some lc_init) = some ⟨2, 2, 2, false⟩
  ∧ lc_advance (chars "a\nb") 2 (some lc_init) = some ⟨2, 2, 2, false⟩ := by decide

/-- C5: with the one-alpha matcher of tests/generator.cpp on "abc" and
repeat range (1, 2), the driver returns success having applied op
successfully three times (position 0 to 3, one character per success),
exceeding the upper bound 2: its second loop performs up to range.second
further applications on top of the range.first already performed. -/
theorem repetition_driver_exceeds_upper_bound :
    advance_repetition_by_range (op_alpha (chars "abc")) 3 (1, 2) 0 = (true, 3)
  ∧ ¬ ((3 : Nat) - 0 ≤ 2) := by decide

/-- C6: on "%b0.1.11", a sequence of three values ending at the end of input
that the tests declare valid, advance_number_value dereferences the end
position at the top of its '.'-separated-values loop; with one more
character after the number it succeeds and emits first_number, next_number
twice and last_number with an empty span, as the claim describes. -/
theorem number_sequence_reads_past_end :
    advance_number_value (chars "%b0.1.11") 0 = none
  ∧ advance_number_value (chars "%b0.1.11x") 0 =
      some ((true, 8), [num_event.first number_flag.binary 2 3
        , num_event.next number_flag.binary 4 5
        , num_event.next number_flag.binary 6 8
        , num_event.last number_flag.binary 8 8]) := by decide

/-- C7 counterexample: a last_number event with an empty text span on a
number node holding two sequence values goes through push_next and appends
the empty text as a third value, instead of completing the sequence without
appending a further value. -/
theorem last_number_empty_appends_value :
    ctx_last_number "" [st_node.number ⟨number_flag.binary, false, ["0", "1"]⟩
      , st_node.repetition 1 1 none]
    = some [st_node.repetition 1 1
        (some (st_node.number ⟨number_flag.binary, false, ["0", "1", ""]⟩))]
  ∧ (["0", "1", ""].length ≠ ["0", "1"].length) := ⟨rfl, by decide⟩

/-- C7 (amended): last_number with a non-empty text span sets the number
node's range second value (yielding exactly two values); with an empty span
it completes the sequence by appending the empty text as a sentinel value;
in both cases the number node is popped and assigned as the inner element of
the repetition node beneath it; and no value can be appended after a range
is set, since push_next on a range node is an assertion failure. -/
theorem last_number_behaviour (text : String) (d : number_data) (lo hi : Int)
    (el : Option st_node) (rest : List st_node) :
    (text ≠ "" → d.value.length = 1 →
      ctx_last_number text (st_node.number d :: st_node.repetition lo hi el :: rest)
        = some (st_node.repetition lo hi
            (some (st_node.number ⟨d.flag, true, d.value ++ [text]⟩)) :: rest))
  ∧ (text = "" → 0 < d.value.length → d.is_range = false →
      ctx_last_number text (st_node.number d :: st_node.repetition lo hi el :: rest)
        = some (st_node.repetition lo hi
            (some (st_node.number ⟨d.flag, d.is_range, d.value ++ [""]⟩)) :: rest))
  ∧ (d.is_range = true → number_push_next text d = none)
  ∧ (d.value.length = 1 → ∀ d2, number_set_last text d = some d2 →
      d2.value.length = 2) := by
  refine ⟨?_, ?_, ?_, ?_⟩
  · intro h1 h2
    simp [ctx_last_number, h1, number_set_last, h2]
  · intro h1 h2 h3
    subst h1
    simp [ctx_last_number, number_push_next, h2, h3]
  · intro h
    simp [number_push_next, h]
  · intro h d2 hd2
    simp [number_set_last, h] at hd2
    subst hd2
    simp [h]

/-- C7 witness: a range-closing last_number on a one-value number node, and
push_next refused on a range node. -/
theorem last_number_behaviour_w :
    ctx_last_number "7" [st_node.number ⟨number_flag.binary, false, ["0"]⟩
      , st_node.repetition 1 1 none]
    = some [st_node.repetition 1 1
        (some (st_node.number ⟨number_flag.binary, true, ["0", "7"]⟩))]
  ∧ number_push_next "9" ⟨number_flag.binary, true, ["0", "1"]⟩ = none :=
  ⟨(last_number_behaviour "7" ⟨number_flag.binary, false, ["0"]⟩ 1 1 none []).1
      (by decide) (by decide)
  , (last_number_behaviour "9" ⟨number_flag.binary, true, ["0", "1"]⟩ 0 0 none []).2.2.1
      rfl⟩

/-- C8: every error the quoted-string advancer reports (unterminated literal,
forbidden character, configured maximum length exceeded, zero meaning no
limit) makes it return failure with the position at its pre-call value, and
the three scenarios of the tests produce exactly unbalanced_quote,
bad_quoted_char and max_length_exceeded. -/
theorem quoted_string_error_semantics (maxlen : Nat) (s : List Char) (pos : Nat) :
    ((advance_quoted_string maxlen s pos).err ≠ errc.success →
      (advance_quoted_string maxlen s pos).success = false
    ∧ (advance_quoted_string maxlen s pos).pos = pos)
  ∧ advance_quoted_string 0 (chars "\"x") 0 = ⟨false, 0, errc.unbalanced_quote⟩
  ∧ advance_quoted_string 0 (chars "\"\x01\"") 0 = ⟨false, 0, errc.bad_quoted_char⟩
  ∧ advance_quoted_string 2 (chars "\"xyz\"") 0
      = ⟨false, 0, errc.max_length_exceeded⟩ := by
  refine ⟨?_, by decide, by decide, by decide⟩
  intro h
  have hs : (advance_quoted_string maxlen s pos).err = errc.success
      ∨ ((advance_quoted_string maxlen s pos).success = false
        ∧ (advance_quoted_string maxlen s pos).pos = pos) := by
    unfold advance_quoted_string
    split
    · exact Or.inl rfl
    · split
      · exact Or.inl rfl
      · exact qs_loop_shape maxlen s pos (s.length + 1) (pos + 1) 0
  rcases hs with hs | hs
  · exact absurd hs h
  · exact hs

/-- C8 witness: the unterminated literal of the tests aborts with the
position reset. -/
theorem quoted_string_error_semantics_w :
    (advance_quoted_string 0 (chars "\"x") 0).success = false
  ∧ (advance_quoted_string 0 (chars "\"x") 0).pos = 0 :=
  (quoted_string_error_semantics 0 (chars "\"x") 0).1 (by decide)

/-- C9: two line-counting iterators compare equal exactly when the base
iterator comparison succeeds and the offsets from the origin coincide, so
iterators whose base positions compare equal but whose offsets differ, as
end-of-stream iterators of distinct logical streams do, never compare equal;
and operator!= is the negation of operator==. -/
theorem iterator_equality_spec {α : Type} (beq : α → α → Bool)
    (a b : line_counter_iterator α) :
    (lc_eq beq a b = true ↔ (beq a.it b.it = true ∧ a.offset = b.offset))
  ∧ lc_ne beq a b = ! lc_eq beq a b
  ∧ (beq a.it b.it = true → a.offset ≠ b.offset → lc_eq beq a b = false) := by
  refine ⟨?_, rfl, ?_⟩
  · simp [lc_eq]
  · intro h1 h2
    simp [lc_eq, h1, h2]

/-- C9 witness: two iterators whose base positions compare equal but whose
offsets differ are unequal. -/
theorem iterator_equality_spec_w :
    lc_eq (fun x y : Nat => x == y) ⟨1, 0, 7, false⟩ ⟨1, 2, 7, false⟩ = false :=
  (iterator_equality_spec (fun x y : Nat => x == y) ⟨1, 0, 7, false⟩
    ⟨1, 2, 7, false⟩).2.2 (by decide) (by decide)

/-- C10: the advancers do read the input at the end position: internet
newline after consuming a CR at end of input, the number advancer after
consuming '-' at end of input and at the top of its '.'-separated-values
loop when a digit run ends at end of input, and the line-counting increment
after advancing the wrapped iterator to the end. -/
theorem advancers_read_past_end :
    advance_internet_newline (chars "\r") 0 = none
  ∧ advance_number_value (chars "%b1-") 0 = none
  ∧ advance_number_value (chars "%b1.") 0 = none
  ∧ lc_inc (chars "a") lc_init = none := by decide
